import Mathlib

/-!
Verification development for `crates/gpui/src/platform/windows/text_system.rs`.

The Rust module is platform glue over two external collaborators: the OS font
enumeration APIs and the cosmic-text shaping/rasterization engine.  Following
the module boundary, the engine's algorithms (font-database queries, family
matching, font-handle fetching, line shaping, glyph rendering, font-file
parsing) are modelled as opaque function parameters carried inside the state,
while every line of the module's own logic (caching, list bookkeeping,
id minting, error paths) is translated directly.

Machine integers: `FontWeight` is an `f32` in the toolkit; its `as u16`
conversion is modelled exactly (truncate, clamp to `[0, 65535]`).  `GlyphId`
is `u32`; its `as u16` cast is `% 65536`.  `f32` sizes are modelled as `Rat`;
none of the verified properties depend on float rounding.

Rust panics (`unwrap`, out-of-bounds indexing) are modelled as the `panic`
constructor of `PResult`/`RResult`; recoverable `anyhow` errors as `err`,
carrying the state as mutated so far (mutations through the lock persist
across an early `?` return).
-/

set_option autoImplicit false

namespace ZedWinText

/-- `FontId`: opaque index into the append-only list of loaded font handles. -/
structure FontId where
  id : Nat
deriving DecidableEq

/-- `GlyphId(u32)`. -/
structure GlyphId where
  id : Nat
deriving DecidableEq

/-- `FontStyle` (gpui) and `cosmic_text::Style`; the conversion between the
two in the source is the evident bijection, so one type serves for both. -/
inductive FontStyle where
  | normal
  | italic
  | oblique
deriving DecidableEq

/-- `fontdb::Stretch`; only `Normal` (its `Default`) occurs in this module. -/
inductive Stretch where
  | ultraCondensed
  | extraCondensed
  | condensed
  | semiCondensed
  | normal
  | semiExpanded
  | expanded
  | extraExpanded
  | ultraExpanded
deriving DecidableEq

/-- `FontFeatures`: a list of (tag, value) pairs; only compared for equality
as part of the `Font` hash-map key, and explicitly ignored by `load_family`. -/
abbrev FontFeatures := List (String × Nat)

/-- The toolkit-level `Font` request value (`family`, `features`, `weight`,
`style`).  `FontWeight` wraps an `f32`, modelled as `Rat`. -/
structure Font where
  family : String
  features : FontFeatures
  weight : Rat
  style : FontStyle
deriving DecidableEq

/-- The gpui `font(family)` helper: default features, weight 400, normal
style. -/
def font (family : String) : Font :=
  { family := family, features := [], weight := 400, style := .normal }

/-- Rust `f32 as u16`: truncate toward zero and saturate to `[0, 65535]`.
(After clamping at 0, truncation and floor agree.) -/
def ratToU16 (q : Rat) : Nat :=
  min 65535 (max 0 q.floor).toNat

/-- A `fontdb::Query` as built by `font_id`: one family name, the converted
weight and style, and `Stretch::default()`. -/
structure FontQuery where
  family : String
  weight : Nat
  style : FontStyle
  stretch : Stretch
deriving DecidableEq

/-- The query `font_id` submits for a `Font` request. -/
def queryOf (f : Font) : FontQuery :=
  { family := f.family
    weight := ratToU16 f.weight
    style := f.style
    stretch := .normal }

/-- `fontdb::FaceInfo` as visible to this module. -/
structure FaceInfo where
  id : Nat
  source : String
  index : Nat
  families : List (String × String)
  post_script_name : String
  style : FontStyle
  weight : Nat
  stretch : Stretch
  monospaced : Bool
deriving DecidableEq

/-- A loaded `cosmic_text::Font` handle: its face id plus its character map
(the only per-handle data this module reads that the claims need). -/
structure CosmicFont where
  id : Nat
  charmap : Char → Nat

/-- One `Attrs` span added to the `AttrsList` by `layout_line`. -/
structure SpanAttr where
  start : Nat
  stop : Nat
  family : String
  stretch : Stretch
  style : FontStyle
  weight : Nat
deriving DecidableEq

/-- One glyph of a shaped engine line (`cosmic_text::LayoutGlyph`):
engine-internal face id, `u16` glyph index, pen position, source byte
offset. -/
structure LayoutGlyph where
  start : Nat
  font_id : Nat
  glyph_id : Nat
  x : Rat
  y : Rat
deriving DecidableEq

/-- One shaped output line (`cosmic_text::LayoutLine`). -/
structure EngineLine where
  w : Rat
  max_ascent : Rat
  max_descent : Rat
  glyphs : List LayoutGlyph
deriving DecidableEq

/-- The swash rasterization cache key: face id, `u16` glyph id, scaled font
size, and the (always zero here) sub-pixel bin. -/
structure CacheKey where
  font_id : Nat
  glyph_id : Nat
  font_size : Rat
  x_bin : Int
  y_bin : Int
deriving DecidableEq

/-- A rendered glyph image (`swash::scale::image::Image`): placement and
pixel data. -/
structure SwashImage where
  left : Int
  top : Int
  width : Nat
  height : Nat
  data : List Nat
deriving DecidableEq

/-- First-match association-list lookup, the model of `HashMap::get`
(insertion is modelled by consing, so the most recent binding wins). -/
def lookupA {α β : Type} [DecidableEq α] (k : α) : List (α × β) → Option β
  | [] => none
  | (a, b) :: rest => if a = k then some b else lookupA k rest

/-- `Iterator::position`: index of the first element satisfying `p`. -/
def position {α : Type} (p : α → Bool) : List α → Option Nat
  | [] => none
  | a :: rest => if p a then some 0 else (position p rest).map (· + 1)

/-- The engine's font database plus its (opaque) algorithms.  Database
mutations touch only `faces`; the algorithm fields are fixed for the
session. -/
structure FontSystem where
  faces : List FaceInfo
  queryFn : List FaceInfo → FontQuery → Option Nat
  matchesFn : List FaceInfo → String → List Nat
  getFontFn : List FaceInfo → Nat → Option CosmicFont
  shapeFn : List FaceInfo → String → List SpanAttr → Rat → List EngineLine
  loadFileFn : String → List FaceInfo

/-- `db().query(&Query { .. })`. -/
def FontSystem.query (fs : FontSystem) (q : FontQuery) : Option Nat :=
  fs.queryFn fs.faces q

/-- `font_system.get_font_matches(Attrs::new().family(Family::Name(name)))`. -/
def FontSystem.get_font_matches (fs : FontSystem) (name : String) : List Nat :=
  fs.matchesFn fs.faces name

/-- `font_system.get_font(id)`. -/
def FontSystem.get_font (fs : FontSystem) (i : Nat) : Option CosmicFont :=
  fs.getFontFn fs.faces i

/-- `db().face(id)`. -/
def FontSystem.face (fs : FontSystem) (i : Nat) : Option FaceInfo :=
  fs.faces.find? (fun fi => fi.id == i)

/-- `db_mut().push_face_info(info)`: registers one face directly. -/
def FontSystem.push_face_info (fs : FontSystem) (info : FaceInfo) : FontSystem :=
  { fs with faces := fs.faces ++ [info] }

/-- `db_mut().load_font_data(bytes)`: appends whatever faces the engine
parses out of one byte buffer (failure parses to no faces). -/
def FontSystem.load_font_data (fs : FontSystem) (parsed : List FaceInfo) : FontSystem :=
  { fs with faces := fs.faces ++ parsed }

/-- `db_mut().load_font_file(path)`: appends the faces parsed from a file
(a load failure is logged and contributes no faces). -/
def FontSystem.load_font_file (fs : FontSystem) (path : String) : FontSystem :=
  { fs with faces := fs.faces ++ fs.loadFileFn path }

/-- `cosmic_text::SwashCache`: memo table from cache key to rendered image,
backed by the engine's (opaque, deterministic) renderer. -/
structure SwashCache where
  image_cache : List (CacheKey × Option SwashImage)
  renderFn : CacheKey → Option SwashImage

/-- `SwashCache::get_image`: return the cached entry, rendering and caching
on a miss (a failed render caches `none`). -/
def SwashCache.get_image (c : SwashCache) (key : CacheKey) :
    Option SwashImage × SwashCache :=
  match lookupA key c.image_cache with
  | some img => (img, c)
  | none =>
      let img := c.renderFn key
      (img, { c with image_cache := (key, img) :: c.image_cache })

/-- `WindowsTextSystemState`: the mutable heart of the component. -/
structure WindowsTextSystemState where
  swash_cache : SwashCache
  font_system : FontSystem
  system_font_paths : List String
  fonts : List CosmicFont
  font_selections : List (Font × FontId)
  font_ids_by_family_name : List (String × List FontId)
  postscript_names_by_font_id : List (FontId × String)

/-- Result of code that can only panic (`unwrap`, slice indexing). -/
inductive PResult (α : Type) where
  | panic : PResult α
  | ok : α → PResult α
deriving DecidableEq

/-- Result of code that can panic or return a recoverable `anyhow` error;
the error carries the state as mutated before the early return. -/
inductive RResult (ε α : Type) where
  | panic : RResult ε α
  | err : ε → RResult ε α
  | ok : α → RResult ε α
deriving DecidableEq

/-- `add_fonts`: load each byte buffer into the font database (the
`Cow::Borrowed` and `Cow::Owned` arms both call `load_font_data`); always
returns `Ok(())`. -/
def WindowsTextSystemState.add_fonts (s : WindowsTextSystemState)
    (buffers : List (List FaceInfo)) : WindowsTextSystemState :=
  { s with font_system := buffers.foldl (fun fs parsed => fs.load_font_data parsed) s.font_system }

/-- The loop body of `load_family`: for each matched face id, fetch the
concrete handle (`get_font(..).unwrap()`), mint `FontId(fonts.len())`, and
push the handle. -/
def load_family_core (fs : FontSystem) (fonts : List CosmicFont) :
    List Nat → Option (List FontId × List CosmicFont)
  | [] => some ([], fonts)
  | i :: rest =>
    match fs.get_font i with
    | none => none
    | some f =>
      match load_family_core fs (fonts ++ [f]) rest with
      | none => none
      | some (fids, fonts1) => some (FontId.mk fonts.length :: fids, fonts1)

/-- `load_family(name, features)`: the `features` argument is ignored by the
source (`_features`); every family match is loaded and appended. -/
def WindowsTextSystemState.load_family (s : WindowsTextSystemState) (name : String)
    (_features : FontFeatures) :
    PResult (List FontId × WindowsTextSystemState) :=
  match load_family_core s.font_system s.fonts (s.font_system.get_font_matches name) with
  | none => .panic
  | some (fids, fonts1) => .ok (fids, { s with fonts := fonts1 })

/-- The family-cache stage of `font_id`: on a Family-cache miss, run
`load_family` and record its result under the family name. -/
def WindowsTextSystemState.familyStage (s : WindowsTextSystemState) (f : Font) :
    PResult WindowsTextSystemState :=
  match lookupA f.family s.font_ids_by_family_name with
  | some _ => .ok s
  | none =>
    match s.load_family f.family f.features with
    | .panic => .panic
    | .ok (fids, s1) =>
      .ok { s1 with font_ids_by_family_name := (f.family, fids) :: s1.font_ids_by_family_name }

/-- `font_id(font)`: Font-Selections cache hit returns immediately;
otherwise populate the Family cache if needed, query the database for the
best match (`context("no font")` on failure), reuse the index of an
already-loaded handle with the matched face id, or fetch and append the
handle, then record the resolution. -/
def WindowsTextSystemState.font_id (s : WindowsTextSystemState) (f : Font) :
    RResult (String × WindowsTextSystemState) (FontId × WindowsTextSystemState) :=
  match lookupA f s.font_selections with
  | some fid => .ok (fid, s)
  | none =>
    match s.familyStage f with
    | .panic => .panic
    | .ok s1 =>
      match s1.font_system.query (queryOf f) with
      | none => .err ("no font", s1)
      | some i =>
        match position (fun cf => cf.id == i) s1.fonts with
        | some p =>
          .ok (FontId.mk p,
               { s1 with font_selections := (f, FontId.mk p) :: s1.font_selections })
        | none =>
          match s1.font_system.get_font i with
          | none => .panic
          | some cf =>
            .ok (FontId.mk s1.fonts.length,
                 { s1 with
                     fonts := s1.fonts ++ [cf]
                     font_selections :=
                       (f, FontId.mk s1.fonts.length) :: s1.font_selections })

/-- `glyph_for_char`: map through the face's character map; glyph index 0
(the .notdef sentinel) becomes `none`. -/
def WindowsTextSystemState.glyph_for_char (s : WindowsTextSystemState) (fid : FontId)
    (ch : Char) : PResult (Option GlyphId) :=
  match s.fonts.get? fid.id with
  | none => .panic
  | some cf =>
    let g := cf.charmap ch
    .ok (if g = 0 then none else some (GlyphId.mk g))

/-- The emoji lookup against a postscript-name table: `map_or(false,
|n| n == "AppleColorEmoji")`. -/
def is_emoji_of (ps : List (FontId × String)) (fid : FontId) : Bool :=
  match lookupA fid ps with
  | some n => n == "AppleColorEmoji"
  | none => false

/-- `is_emoji(font_id)`. -/
def WindowsTextSystemState.is_emoji (s : WindowsTextSystemState) (fid : FontId) : Bool :=
  is_emoji_of s.postscript_names_by_font_id fid

/-- `Size<DevicePixels>` (`DevicePixels` wraps `i32`). -/
structure SizeD where
  width : Int
  height : Int
deriving DecidableEq

/-- `Bounds<DevicePixels>`. -/
structure BoundsD where
  origin : Int × Int
  size : SizeD
deriving DecidableEq

/-- `RenderGlyphParams` as read by the raster functions. -/
structure RenderGlyphParams where
  font_id : FontId
  glyph_id : GlyphId
  font_size : Rat
  scale_factor : Rat
deriving DecidableEq

/-- The `CacheKey::new(font.id(), glyph as u16, size * scale, (0.0, 0.0)).0`
expression shared by both raster functions. -/
def rasterCacheKey (cf : CosmicFont) (params : RenderGlyphParams) : CacheKey :=
  { font_id := cf.id
    glyph_id := params.glyph_id.id % 65536
    font_size := params.font_size * params.scale_factor
    x_bin := 0
    y_bin := 0 }

/-- `raster_bounds`: fetch (and cache) the rendered image, report its
placement with the vertical origin flipped, and its pixel dimensions. -/
def WindowsTextSystemState.raster_bounds (s : WindowsTextSystemState)
    (params : RenderGlyphParams) : PResult (BoundsD × WindowsTextSystemState) :=
  match s.fonts.get? params.font_id.id with
  | none => .panic
  | some cf =>
    let r := s.swash_cache.get_image (rasterCacheKey cf params)
    match r.1 with
    | none => .panic
    | some image =>
      .ok ({ origin := (image.left, -image.top)
             size := { width := (image.width : Int), height := (image.height : Int) } },
           { s with swash_cache := r.2 })

/-- `rasterize_glyph`: reject zero-area bounds before touching any cache;
otherwise fetch (and cache) the image and return the caller-supplied size
with the image's pixel data. -/
def WindowsTextSystemState.rasterize_glyph (s : WindowsTextSystemState)
    (params : RenderGlyphParams) (glyph_bounds : BoundsD) :
    RResult (String × WindowsTextSystemState)
      ((SizeD × List Nat) × WindowsTextSystemState) :=
  if glyph_bounds.size.width = 0 ∨ glyph_bounds.size.height = 0 then
    .err ("glyph bounds are empty", s)
  else
    let bitmap_size := glyph_bounds.size
    match s.fonts.get? params.font_id.id with
    | none => .panic
    | some cf =>
      let r := s.swash_cache.get_image (rasterCacheKey cf params)
      match r.1 with
      | none => .panic
      | some image =>
        .ok ((bitmap_size, image.data), { s with swash_cache := r.2 })

/-- `FontRun`: one `(FontId, byte length)` input run for shaping. -/
structure FontRun where
  font_id : FontId
  len : Nat
deriving DecidableEq

/-- `ShapedGlyph`. -/
structure ShapedGlyph where
  id : GlyphId
  position : Rat × Rat
  index : Nat
  is_emoji : Bool
deriving DecidableEq

/-- `ShapedRun`. -/
structure ShapedRun where
  font_id : FontId
  glyphs : List ShapedGlyph
deriving DecidableEq

/-- `LineLayout`. -/
structure LineLayout where
  font_size : Rat
  width : Rat
  ascent : Rat
  descent : Rat
  runs : List ShapedRun
  len : Nat
deriving DecidableEq

/-- The attribute-building loop of `layout_line`: for each input run, look
up the handle by `FontId` index, the face record by handle id, take the
first family name (`families.first().unwrap().0`), and emit one span over
the run's byte range. -/
def buildAttrs (s : WindowsTextSystemState) :
    List FontRun → Nat → Option (List SpanAttr)
  | [], _ => some []
  | run :: rest, offs =>
    match s.fonts.get? run.font_id.id with
    | none => none
    | some cf =>
      match s.font_system.face cf.id with
      | none => none
      | some face =>
        match face.families.head? with
        | none => none
        | some fam =>
          match buildAttrs s rest (offs + run.len) with
          | none => none
          | some attrs =>
            some ({ start := offs
                    stop := offs + run.len
                    family := fam.1
                    stretch := face.stretch
                    style := face.style
                    weight := face.weight } :: attrs)

/-- The per-glyph loop of `layout_line`: map the engine face id back to a
`FontId` by linear scan (`position(..).unwrap()`) and wrap each glyph as a
single-glyph run. -/
def mkRuns (fonts : List CosmicFont) (ps : List (FontId × String)) :
    List LayoutGlyph → Option (List ShapedRun)
  | [] => some []
  | g :: rest =>
    match position (fun cf => cf.id == g.font_id) fonts with
    | none => none
    | some p =>
      match mkRuns fonts ps rest with
      | none => none
      | some rs =>
        some ({ font_id := FontId.mk p
                glyphs := [{ id := GlyphId.mk g.glyph_id
                             position := (g.x, g.y)
                             index := g.start
                             is_emoji := is_emoji_of ps (FontId.mk p) }] } :: rs)

/-- `layout_line`: build the attribute spans, shape the whole line unwrapped
(`f32::MAX`, `Wrap::None`), consult only the first shaped line
(`layout.first().unwrap()`), and wrap each of its glyphs as a single-glyph
run. -/
def WindowsTextSystemState.layout_line (s : WindowsTextSystemState) (text : String)
    (font_size : Rat) (font_runs : List FontRun) :
    PResult (LineLayout × WindowsTextSystemState) :=
  match buildAttrs s font_runs 0 with
  | none => .panic
  | some attrs =>
    match (s.font_system.shapeFn s.font_system.faces text attrs font_size).head? with
    | none => .panic
    | some layout =>
      match mkRuns s.fonts s.postscript_names_by_font_id layout.glyphs with
      | none => .panic
      | some runs =>
        .ok ({ font_size := font_size
               width := layout.w
               ascent := layout.max_ascent
               descent := layout.max_descent
               runs := runs
               len := text.utf8ByteSize }, s)

/-- The fixed family name of the synthetic icon font. -/
def iconFamilyName : String := "Segoe Fluent Icons"

/-- `fontdb::ID::dummy()`. -/
def fontdbIdDummy : Nat := 0

/-- The `FaceInfo` literal pushed by `load_ui_icons_font` (path
`%windir%\Fonts\SegoeIcons.ttf`, fixed family name, normal
style/weight/stretch). -/
def iconFaceInfo (windir : String) : FaceInfo :=
  { id := fontdbIdDummy
    source := windir ++ "\\Fonts\\SegoeIcons.ttf"
    index := 0
    families := [(iconFamilyName, "en-US")]
    post_script_name := iconFamilyName
    style := .normal
    weight := 400
    stretch := .normal
    monospaced := false }

/-- `load_ui_icons_font`: push the synthetic face, find it by family match
(`first().unwrap()`), fetch its handle (`get_font(..).unwrap()`), record the
selection under `FontId(fonts.len())`, and push the handle. -/
def WindowsTextSystemState.load_ui_icons_font (s : WindowsTextSystemState)
    (windir : String) : PResult WindowsTextSystemState :=
  let fs := s.font_system.push_face_info (iconFaceInfo windir)
  match (fs.get_font_matches iconFamilyName).head? with
  | none => .panic
  | some face_id =>
    match fs.get_font face_id with
    | none => .panic
    | some icon_font_rc =>
      .ok { s with
              font_system := fs
              font_selections :=
                (font iconFamilyName, FontId.mk s.fonts.length) :: s.font_selections
              fonts := s.fonts ++ [icon_font_rc] }

/-- `load_system_fonts`: clear and rebuild the discovered-path set (the OS
enumeration callback is the external input `discovered`), then load every
path into the database. -/
def WindowsTextSystemState.load_system_fonts (s : WindowsTextSystemState)
    (discovered : List String) : WindowsTextSystemState :=
  let paths := discovered.dedup
  { s with
      system_font_paths := paths
      font_system := paths.foldl (fun fs path => fs.load_font_file path) s.font_system }

/-- Everything the external collaborators contribute to construction: the
engine's algorithms, the faces `FontSystem::new()` discovers, the paths the
OS enumeration yields, and the `windir` environment value. -/
structure EngineParams where
  initial_faces : List FaceInfo
  queryFn : List FaceInfo → FontQuery → Option Nat
  matchesFn : List FaceInfo → String → List Nat
  getFontFn : List FaceInfo → Nat → Option CosmicFont
  shapeFn : List FaceInfo → String → List SpanAttr → Rat → List EngineLine
  loadFileFn : String → List FaceInfo
  renderFn : CacheKey → Option SwashImage
  discovered_paths : List String
  windir : String

/-- `WindowsTextSystem::new()`: fresh empty state, register the icon font,
enumerate and load system fonts, then the debugging `font_id` resolution of
the icon font (its `Result` is discarded by `log_err`, but its state
mutations persist). -/
def windowsTextSystemNew (p : EngineParams) : PResult WindowsTextSystemState :=
  let s0 : WindowsTextSystemState :=
    { swash_cache := { image_cache := [], renderFn := p.renderFn }
      font_system :=
        { faces := p.initial_faces
          queryFn := p.queryFn
          matchesFn := p.matchesFn
          getFontFn := p.getFontFn
          shapeFn := p.shapeFn
          loadFileFn := p.loadFileFn }
      system_font_paths := []
      fonts := []
      font_selections := []
      font_ids_by_family_name := []
      postscript_names_by_font_id := [] }
  match s0.load_ui_icons_font p.windir with
  | .panic => .panic
  | .ok s1 =>
    let s2 := s1.load_system_fonts p.discovered_paths
    match s2.font_id (font iconFamilyName) with
    | .panic => .panic
    | .err e => .ok e.2
    | .ok r => .ok r.2

/-- The list of loaded font handles only ever grows at the end. -/
def appendOnly (l1 l2 : List CosmicFont) : Prop :=
  ∃ tail, l2 = l1 ++ tail

/-- States reachable from construction through the text system's
operations. -/
inductive Reachable : WindowsTextSystemState → Prop where
  | init (p : EngineParams) (s : WindowsTextSystemState) :
      windowsTextSystemNew p = .ok s → Reachable s
  | add_fonts (s : WindowsTextSystemState) (bufs : List (List FaceInfo)) :
      Reachable s → Reachable (s.add_fonts bufs)
  | font_id_ok (s : WindowsTextSystemState) (f : Font) (fid : FontId)
      (s1 : WindowsTextSystemState) :
      Reachable s → s.font_id f = .ok (fid, s1) → Reachable s1
  | font_id_err (s : WindowsTextSystemState) (f : Font)
      (e : String × WindowsTextSystemState) :
      Reachable s → s.font_id f = .err e → Reachable e.2
  | raster_bounds (s : WindowsTextSystemState) (params : RenderGlyphParams)
      (b : BoundsD) (s1 : WindowsTextSystemState) :
      Reachable s → s.raster_bounds params = .ok (b, s1) → Reachable s1
  | rasterize_ok (s : WindowsTextSystemState) (params : RenderGlyphParams)
      (gb : BoundsD) (r : SizeD × List Nat) (s1 : WindowsTextSystemState) :
      Reachable s → s.rasterize_glyph params gb = .ok (r, s1) → Reachable s1
  | rasterize_err (s : WindowsTextSystemState) (params : RenderGlyphParams)
      (gb : BoundsD) (e : String × WindowsTextSystemState) :
      Reachable s → s.rasterize_glyph params gb = .err e → Reachable e.2
  | layout (s : WindowsTextSystemState) (text : String) (size : Rat)
      (runs : List FontRun) (ll : LineLayout) (s1 : WindowsTextSystemState) :
      Reachable s → s.layout_line text size runs = .ok (ll, s1) → Reachable s1

/-! ### Concrete test scenarios (used by the witnesses below) -/

/-- An inert fallback state for the concrete scenarios below. -/
def baseState : WindowsTextSystemState :=
  { swash_cache := { image_cache := [], renderFn := fun _ => none }
    font_system :=
      { faces := []
        queryFn := fun _ _ => none
        matchesFn := fun _ _ => []
        getFontFn := fun _ _ => none
        shapeFn := fun _ _ _ _ => []
        loadFileFn := fun _ => [] }
    system_font_paths := []
    fonts := []
    font_selections := []
    font_ids_by_family_name := []
    postscript_names_by_font_id := [] }

/-- State extractor for `font_id` results. -/
def fontIdState (r : RResult (String × WindowsTextSystemState)
    (FontId × WindowsTextSystemState)) (d : WindowsTextSystemState) :
    WindowsTextSystemState :=
  match r with
  | .ok a => a.2
  | .err e => e.2
  | .panic => d

/-- Bounds extractor for `raster_bounds` results. -/
def rasterBoundsOf (r : PResult (BoundsD × WindowsTextSystemState)) (d : BoundsD) :
    BoundsD :=
  match r with
  | .ok a => a.1
  | .panic => d

/-- State extractor for `raster_bounds` results. -/
def rasterStateOf (r : PResult (BoundsD × WindowsTextSystemState))
    (d : WindowsTextSystemState) : WindowsTextSystemState :=
  match r with
  | .ok a => a.2
  | .panic => d

/-- Layout extractor for `layout_line` results. -/
def layoutOf (r : PResult (LineLayout × WindowsTextSystemState)) (d : LineLayout) :
    LineLayout :=
  match r with
  | .ok a => a.1
  | .panic => d

/-- A one-face test database: face 5, family "Arial". -/
def arialFace : FaceInfo :=
  { id := 5, source := "arial.ttf", index := 0
    families := [("Arial", "en-US")], post_script_name := "ArialMT"
    style := .normal, weight := 400, stretch := .normal, monospaced := false }

/-- Test engine over `arialFace`: every query for family "Arial" matches
face 5; handles report the face id they were fetched for. -/
def arialFS : FontSystem :=
  { faces := [arialFace]
    queryFn := fun _ q => if q.family == "Arial" then some 5 else none
    matchesFn := fun faces name =>
      (faces.filter (fun fi => fi.families.any (fun fam => fam.1 == name))).map
        (fun fi => fi.id)
    getFontFn := fun faces i =>
      if faces.any (fun fi => fi.id == i) then
        some { id := i, charmap := fun _ => 7 }
      else none
    shapeFn := fun _ _ _ _ => []
    loadFileFn := fun _ => [] }

def arialS0 : WindowsTextSystemState := { baseState with font_system := arialFS }

def arialF1 : Font := font "Arial"

def arialF2 : Font :=
  { family := "Arial", features := [], weight := 700, style := .normal }

def arialS1 : WindowsTextSystemState := fontIdState (arialS0.font_id arialF1) baseState

def arialS2 : WindowsTextSystemState := fontIdState (arialS1.font_id arialF2) baseState

/-- A state whose Family cache knows "Nope" but whose database matches
nothing. -/
def nopeS : WindowsTextSystemState :=
  { baseState with font_ids_by_family_name := [("Nope", [])] }

def nopeF : Font := font "Nope"

/-- A handle mapping 'a' to the .notdef sentinel and all else to glyph 7. -/
def c4cf : CosmicFont := { id := 0, charmap := fun c => if c = 'a' then 0 else 7 }

def c4s : WindowsTextSystemState := { baseState with fonts := [c4cf] }

def c5params : RenderGlyphParams :=
  { font_id := FontId.mk 0, glyph_id := GlyphId.mk 1, font_size := 12, scale_factor := 1 }

/-- Zero-width bounds. -/
def c5bounds : BoundsD := { origin := (0, 0), size := { width := 0, height := 3 } }

def c7cf : CosmicFont := { id := 3, charmap := fun _ => 7 }

/-- A 3×4 rendered test image. -/
def c7img : SwashImage :=
  { left := 1, top := 2, width := 3, height := 4, data := [9, 9, 9] }

def c7s : WindowsTextSystemState :=
  { baseState with
      fonts := [c7cf]
      swash_cache := { image_cache := [], renderFn := fun _ => some c7img } }

def c7params : RenderGlyphParams :=
  { font_id := FontId.mk 0, glyph_id := GlyphId.mk 5, font_size := 14, scale_factor := 2 }

def c7b : BoundsD := rasterBoundsOf (c7s.raster_bounds c7params) c5bounds

def c7s1 : WindowsTextSystemState := rasterStateOf (c7s.raster_bounds c7params) baseState

def c6cf : CosmicFont := { id := 0, charmap := fun _ => 7 }

def c6face : FaceInfo :=
  { id := 0, source := "mono.ttf", index := 0
    families := [("Mono", "en-US")], post_script_name := "Mono"
    style := .normal, weight := 400, stretch := .normal, monospaced := true }

/-- Test shaping output: two glyphs of face 0 over "ab". -/
def c6L : EngineLine :=
  { w := 20, max_ascent := 8, max_descent := 2
    glyphs := [{ start := 0, font_id := 0, glyph_id := 5, x := 0, y := 0 },
               { start := 1, font_id := 0, glyph_id := 6, x := 10, y := 0 }] }

def c6fs : FontSystem :=
  { faces := [c6face]
    queryFn := fun _ _ => none
    matchesFn := fun _ _ => []
    getFontFn := fun _ _ => none
    shapeFn := fun _ _ _ _ => [c6L]
    loadFileFn := fun _ => [] }

def c6s : WindowsTextSystemState :=
  { baseState with font_system := c6fs, fonts := [c6cf] }

def c6runs : List FontRun := [{ font_id := FontId.mk 0, len := 2 }]

def c6attrs : List SpanAttr := (buildAttrs c6s c6runs 0).getD []

def c6ll : LineLayout :=
  layoutOf (c6s.layout_line "ab" 14 c6runs)
    { font_size := 0, width := 0, ascent := 0, descent := 0, runs := [], len := 0 }

/-- Test shaping output for the constructed system: one glyph of the icon
face (the dummy face id 0). -/
def demoLine : EngineLine :=
  { w := 10, max_ascent := 8, max_descent := 2
    glyphs := [{ start := 0, font_id := fontdbIdDummy, glyph_id := 5, x := 0, y := 0 }] }

/-- Concrete engine parameters under which construction succeeds: no system
fonts, family matching by name, handles reporting their face id. -/
def demoParams : EngineParams :=
  { initial_faces := []
    queryFn := fun faces q =>
      (faces.find? (fun fi => fi.families.any (fun fam => fam.1 == q.family))).map
        (fun fi => fi.id)
    matchesFn := fun faces name =>
      (faces.filter (fun fi => fi.families.any (fun fam => fam.1 == name))).map
        (fun fi => fi.id)
    getFontFn := fun faces i =>
      if faces.any (fun fi => fi.id == i) then
        some { id := i, charmap := fun _ => 7 }
      else none
    shapeFn := fun _ _ _ _ => [demoLine]
    loadFileFn := fun _ => []
    renderFn := fun _ => some { left := 1, top := 2, width := 3, height := 4, data := [9, 9] }
    discovered_paths := []
    windir := "C:" }

/-- The state the constructor produces for `demoParams`. -/
def demoState : WindowsTextSystemState :=
  match windowsTextSystemNew demoParams with
  | .ok s => s
  | .panic => baseState

/-- A pre-existing unrelated handle occupying index 0. -/
def c9cf : CosmicFont := { id := 9, charmap := fun _ => 3 }

def c9s0 : WindowsTextSystemState :=
  { baseState with font_system := arialFS, fonts := [c9cf] }

def c9s1 : WindowsTextSystemState := fontIdState (c9s0.font_id arialF1) baseState

def c10ll : LineLayout :=
  layoutOf (demoState.layout_line "a" 14 [{ font_id := FontId.mk 0, len := 1 }])
    { font_size := 0, width := 0, ascent := 0, descent := 0, runs := [], len := 0 }

/-! ### Helper lemmas -/

theorem appendOnly_refl (l : List CosmicFont) : appendOnly l l :=
  ⟨[], by simp⟩

theorem appendOnly_trans {l1 l2 l3 : List CosmicFont}
    (h1 : appendOnly l1 l2) (h2 : appendOnly l2 l3) : appendOnly l1 l3 := by
  obtain ⟨t1, rfl⟩ := h1
  obtain ⟨t2, rfl⟩ := h2
  exact ⟨t1 ++ t2, by simp⟩

theorem appendOnly_get {l1 l2 : List CosmicFont} (h : appendOnly l1 l2)
    {i : Nat} {cf : CosmicFont} (hg : l1.get? i = some cf) : l2.get? i = some cf := by
  obtain ⟨t, rfl⟩ := h
  have hlt : i < l1.length := by
    by_contra hge
    rw [List.get?_eq_none.mpr (Nat.le_of_not_lt hge)] at hg
    exact Option.noConfusion hg
  rw [List.get?_append hlt]
  exact hg

theorem lookupA_cons_self {α β : Type} [DecidableEq α] (k : α) (b : β)
    (l : List (α × β)) : lookupA k ((k, b) :: l) = some b := by
  simp [lookupA]

theorem position_append_some {α : Type} (p : α → Bool) (l1 l2 : List α) (i : Nat)
    (h : position p l1 = some i) : position p (l1 ++ l2) = some i := by
  induction l1 generalizing i with
  | nil => simp [position] at h
  | cons a rest ih =>
    by_cases hp : p a
    · simp [position, hp] at h ⊢
      exact h
    · simp [position, hp] at h ⊢
      obtain ⟨j, hj, rfl⟩ := h
      exact ⟨j, ih j hj, rfl⟩

theorem position_append_found {α : Type} (p : α → Bool) (l1 : List α) (a : α)
    (l2 : List α) (h : position p l1 = none) (ha : p a = true) :
    position p (l1 ++ a :: l2) = some l1.length := by
  induction l1 with
  | nil => simp [position, ha]
  | cons b rest ih =>
    by_cases hb : p b
    · simp [position, hb] at h
    · simp [position, hb] at h
      have := ih h
      simp [position, hb, this]

/-- `load_family_core` only appends to the handle list. -/
theorem load_family_core_appendOnly (fs : FontSystem) :
    ∀ (ids : List Nat) (fonts : List CosmicFont) (fids : List FontId)
      (fonts1 : List CosmicFont),
      load_family_core fs fonts ids = some (fids, fonts1) → appendOnly fonts fonts1 := by
  intro ids
  induction ids with
  | nil =>
    intro fonts fids fonts1 h
    simp [load_family_core] at h
    obtain ⟨-, h2⟩ := h
    subst h2
    exact appendOnly_refl fonts
  | cons i rest ih =>
    intro fonts fids fonts1 h
    unfold load_family_core at h
    split at h
    · exact absurd h (by simp)
    next f hg =>
      split at h
      · exact absurd h (by simp)
      next fids2 fonts2 hr =>
        simp at h
        obtain ⟨-, h2⟩ := h
        subst h2
        exact appendOnly_trans ⟨[f], rfl⟩ (ih (fonts ++ [f]) fids2 fonts2 hr)

/-- Frame lemma for `load_family`: only `fonts` changes, and only by
appending. -/
theorem load_family_frame {s : WindowsTextSystemState} {name : String}
    {feat : FontFeatures} {fids : List FontId} {s1 : WindowsTextSystemState}
    (h : s.load_family name feat = .ok (fids, s1)) :
    appendOnly s.fonts s1.fonts ∧ s1.font_system = s.font_system ∧
    s1.font_selections = s.font_selections ∧
    s1.font_ids_by_family_name = s.font_ids_by_family_name ∧
    s1.postscript_names_by_font_id = s.postscript_names_by_font_id ∧
    s1.swash_cache = s.swash_cache := by
  unfold WindowsTextSystemState.load_family at h
  cases hc : load_family_core s.font_system s.fonts (s.font_system.get_font_matches name) with
  | none => rw [hc] at h; exact absurd h (by simp)
  | some pr =>
    obtain ⟨fids2, fonts2⟩ := pr
    rw [hc] at h
    simp at h
    obtain ⟨-, hs⟩ := h
    subst hs
    exact ⟨load_family_core_appendOnly s.font_system _ _ _ _ hc, rfl, rfl, rfl, rfl, rfl⟩

/-- Frame lemma for the family-cache stage of `font_id`. -/
theorem familyStage_frame {s s1 : WindowsTextSystemState} {f : Font}
    (h : s.familyStage f = .ok s1) :
    appendOnly s.fonts s1.fonts ∧ s1.font_system = s.font_system ∧
    s1.font_selections = s.font_selections ∧
    s1.postscript_names_by_font_id = s.postscript_names_by_font_id ∧
    s1.swash_cache = s.swash_cache := by
  unfold WindowsTextSystemState.familyStage at h
  cases hl : lookupA f.family s.font_ids_by_family_name with
  | some v =>
    rw [hl] at h
    simp at h
    subst h
    exact ⟨appendOnly_refl _, rfl, rfl, rfl, rfl⟩
  | none =>
    rw [hl] at h
    cases hf : s.load_family f.family f.features with
    | panic => rw [hf] at h; exact absurd h (by simp)
    | ok pr =>
      obtain ⟨fids, s2⟩ := pr
      rw [hf] at h
      simp at h
      obtain ⟨hfonts, hsys, hsel, -, hps, hsc⟩ := load_family_frame hf
      subst h
      exact ⟨hfonts, hsys, hsel, hps, hsc⟩

/-- A Font-Selections cache hit returns immediately, without mutation. -/
theorem font_id_hit {s : WindowsTextSystemState} {f : Font} {fid : FontId}
    (hl : lookupA f s.font_selections = some fid) :
    s.font_id f = .ok (fid, s) := by
  unfold WindowsTextSystemState.font_id
  rw [hl]

/-- Complete case analysis of a successful `font_id` resolution. -/
theorem font_id_ok_inversion {s : WindowsTextSystemState} {f : Font} {fid : FontId}
    {s1 : WindowsTextSystemState} (h : s.font_id f = .ok (fid, s1)) :
    (lookupA f s.font_selections = some fid ∧ s1 = s) ∨
    (lookupA f s.font_selections = none ∧
      ∃ sf i, s.familyStage f = .ok sf ∧ sf.font_system.query (queryOf f) = some i ∧
        ((∃ p, position (fun cf => cf.id == i) sf.fonts = some p ∧ fid = FontId.mk p ∧
            s1 = { sf with font_selections := (f, FontId.mk p) :: sf.font_selections }) ∨
         (position (fun cf => cf.id == i) sf.fonts = none ∧
           ∃ cf, sf.font_system.get_font i = some cf ∧ fid = FontId.mk sf.fonts.length ∧
             s1 = { sf with
                      fonts := sf.fonts ++ [cf]
                      font_selections :=
                        (f, FontId.mk sf.fonts.length) :: sf.font_selections }))) := by
  unfold WindowsTextSystemState.font_id at h
  split at h
  next fid0 hl =>
    simp only [RResult.ok.injEq, Prod.mk.injEq] at h
    obtain ⟨h1, h2⟩ := h
    subst h1
    subst h2
    exact Or.inl ⟨hl, rfl⟩
  next hl =>
    split at h
    · exact absurd h (by simp)
    next sf hfam =>
      split at h
      · exact absurd h (by simp)
      next i hq =>
        split at h
        next p hpos =>
          simp only [RResult.ok.injEq, Prod.mk.injEq] at h
          obtain ⟨h1, h2⟩ := h
          subst h1
          subst h2
          exact Or.inr ⟨hl, sf, i, hfam, hq, Or.inl ⟨p, hpos, rfl, rfl⟩⟩
        next hpos =>
          split at h
          · exact absurd h (by simp)
          next cf hg =>
            simp only [RResult.ok.injEq, Prod.mk.injEq] at h
            obtain ⟨h1, h2⟩ := h
            subst h1
            subst h2
            exact Or.inr ⟨hl, sf, i, hfam, hq, Or.inr ⟨hpos, cf, hg, rfl, rfl⟩⟩

/-- Complete case analysis of a `font_id` error: it can only be the
"no font" error out of the database query, after a cache miss and a
successful family stage. -/
theorem font_id_err_inversion {s : WindowsTextSystemState} {f : Font}
    {e : String × WindowsTextSystemState} (h : s.font_id f = .err e) :
    e.1 = "no font" ∧ lookupA f s.font_selections = none ∧
    s.familyStage f = .ok e.2 ∧ e.2.font_system.query (queryOf f) = none := by
  unfold WindowsTextSystemState.font_id at h
  split at h
  · exact absurd h (by simp)
  next hl =>
    split at h
    · exact absurd h (by simp)
    next sf hfam =>
      split at h
      next hq =>
        simp only [RResult.err.injEq] at h
        subst h
        exact ⟨rfl, hl, hfam, hq⟩
      next i hq =>
        split at h
        · exact absurd h (by simp)
        · split at h
          · exact absurd h (by simp)
          · exact absurd h (by simp)

/-- On a cache miss whose query finds nothing, `font_id` fails with the
"no font" error, returning the family-stage state. -/
theorem font_id_miss_query_none {s s1 : WindowsTextSystemState} {f : Font}
    (hl : lookupA f s.font_selections = none)
    (hf : s.familyStage f = .ok s1)
    (hq : s1.font_system.query (queryOf f) = none) :
    s.font_id f = .err ("no font", s1) := by
  unfold WindowsTextSystemState.font_id
  simp only [hl, hf, hq]

/-! ### C1 -/

/-- C1: resolving the same `Font` twice returns the same `FontId` both
times — the first successful resolution leaves `f ↦ fid` in the Font
Selections cache, and a second call on the resulting state is a cache hit
returning the same `fid` with no further mutation. -/
theorem C1_font_id_memoized (s s1 : WindowsTextSystemState) (f : Font) (fid : FontId)
    (h : s.font_id f = .ok (fid, s1)) :
    lookupA f s1.font_selections = some fid ∧ s1.font_id f = .ok (fid, s1) := by
  have hsel : lookupA f s1.font_selections = some fid := by
    rcases font_id_ok_inversion h with ⟨hl, rfl⟩ | ⟨hl, sf, i, hfam, hq, hcase⟩
    · exact hl
    · rcases hcase with ⟨p, hpos, rfl, rfl⟩ | ⟨hpos, cf, hg, rfl, rfl⟩
      · exact lookupA_cons_self f (FontId.mk p) sf.font_selections
      · exact lookupA_cons_self f (FontId.mk sf.fonts.length) sf.font_selections
  exact ⟨hsel, font_id_hit hsel⟩

/-! ### C2 -/

/-- C2: two fresh resolutions whose database queries return the same face
id yield the same `FontId`: before minting, `font_id` scans the loaded-font
list for the matched face identity and reuses the first matching index.
`hwf` is the engine contract that a handle fetched for face `i` reports
face id `i`. -/
theorem C2_font_id_dedup_by_face (s s1 s2 : WindowsTextSystemState) (f1 f2 : Font)
    (fid1 fid2 : FontId) (i : Nat)
    (hm1 : lookupA f1 s.font_selections = none)
    (h1 : s.font_id f1 = .ok (fid1, s1))
    (hm2 : lookupA f2 s1.font_selections = none)
    (h2 : s1.font_id f2 = .ok (fid2, s2))
    (hq1 : s.font_system.query (queryOf f1) = some i)
    (hq2 : s.font_system.query (queryOf f2) = some i)
    (hwf : ∀ cf, s.font_system.get_font i = some cf → cf.id = i) :
    fid1 = fid2 := by
  rcases font_id_ok_inversion h1 with ⟨hl, -⟩ | ⟨-, sf1, i1, hfam1, hq1x, hcase1⟩
  · rw [hl] at hm1; exact absurd hm1 (by simp)
  obtain ⟨hao1, hsys1, -, -, -⟩ := familyStage_frame hfam1
  rw [hsys1, hq1] at hq1x
  obtain rfl : i = i1 := by injection hq1x
  rcases font_id_ok_inversion h2 with ⟨hl, -⟩ | ⟨-, sf2, i2, hfam2, hq2x, hcase2⟩
  · rw [hl] at hm2; exact absurd hm2 (by simp)
  obtain ⟨hao2, hsys2, -, -, -⟩ := familyStage_frame hfam2
  -- The first resolution leaves the font system untouched, so the second
  -- query ran against the same database.
  have hsys1b : s1.font_system = s.font_system := by
    rcases hcase1 with ⟨p, -, -, rfl⟩ | ⟨-, cf, -, -, rfl⟩ <;> exact hsys1
  rw [hsys2, hsys1b, hq2] at hq2x
  obtain rfl : i = i2 := by injection hq2x
  rcases hcase1 with ⟨p, hpos1, rfl, rfl⟩ | ⟨hpos1, cf, hg, rfl, rfl⟩
  · -- First resolution reused index `p`; the scan in the grown list still
    -- finds `p` first.
    obtain ⟨t, ht⟩ := hao2
    have hfonts : sf2.fonts = sf1.fonts ++ t := ht
    rcases hcase2 with ⟨p2, hpos2, rfl, -⟩ | ⟨hpos2, cf2, -, -, -⟩
    · rw [hfonts, position_append_some _ _ _ _ hpos1] at hpos2
      injection hpos2 with hx
      rw [hx]
    · rw [hfonts, position_append_some _ _ _ _ hpos1] at hpos2
      exact absurd hpos2 (by simp)
  · -- First resolution appended the fetched handle at index
    -- `sf1.fonts.length`; the scan in the grown list finds it there.
    have hcfid : cf.id = i := hwf cf (by rw [← hsys1]; exact hg)
    obtain ⟨t, ht⟩ := hao2
    have hfonts : sf2.fonts = sf1.fonts ++ cf :: t := by
      rw [ht]; simp
    have hfound : position (fun c => c.id == i) sf2.fonts = some sf1.fonts.length := by
      rw [hfonts]
      exact position_append_found _ _ _ _ hpos1 (by simp [hcfid])
    rcases hcase2 with ⟨p2, hpos2, rfl, -⟩ | ⟨hpos2, cf2, -, -, -⟩
    · rw [hfound] at hpos2
      injection hpos2 with hx
      rw [hx]
    · rw [hfound] at hpos2
      exact absurd hpos2 (by simp)

/-! ### C3 -/

/-- C3: `font_id` surfaces a recoverable error exactly when, on the
resolution path (cache miss, family stage completed), the database's
best-match query finds no face — and that error is the "no font" error,
not a `FontId`. -/
theorem C3_font_id_no_font_error (s : WindowsTextSystemState) (f : Font) :
    (∀ m s1, s.font_id f = .err (m, s1) →
        m = "no font" ∧ lookupA f s.font_selections = none ∧
        s.font_system.query (queryOf f) = none) ∧
    (∀ s1, lookupA f s.font_selections = none → s.familyStage f = .ok s1 →
        s.font_system.query (queryOf f) = none →
        s.font_id f = .err ("no font", s1)) := by
  constructor
  · intro m s1 h
    obtain ⟨hm, hl, hfam, hq⟩ := font_id_err_inversion h
    obtain ⟨-, hsys, -, -, -⟩ := familyStage_frame hfam
    rw [hsys] at hq
    exact ⟨hm, hl, hq⟩
  · intro s1 hl hfam hq
    obtain ⟨-, hsys, -, -, -⟩ := familyStage_frame hfam
    exact font_id_miss_query_none hl hfam (by rw [hsys]; exact hq)

/-! ### C4 -/

/-- C4: `glyph_for_char` never returns glyph id 0 as found: a character the
face's charmap sends to the .notdef sentinel 0 yields `none`, any other
yields `some` of that (nonzero) index. -/
theorem C4_glyph_for_char_notdef (s : WindowsTextSystemState) (fid : FontId)
    (cf : CosmicFont) (ch : Char) (hf : s.fonts.get? fid.id = some cf) :
    (∀ g : GlyphId, s.glyph_for_char fid ch = .ok (some g) → g.id ≠ 0) ∧
    (cf.charmap ch = 0 → s.glyph_for_char fid ch = .ok none) ∧
    (cf.charmap ch ≠ 0 →
      s.glyph_for_char fid ch = .ok (some (GlyphId.mk (cf.charmap ch)))) := by
  have heval : s.glyph_for_char fid ch =
      .ok (if cf.charmap ch = 0 then none else some (GlyphId.mk (cf.charmap ch))) := by
    unfold WindowsTextSystemState.glyph_for_char
    rw [hf]
  refine ⟨?_, ?_, ?_⟩
  · intro g hg
    rw [heval] at hg
    by_cases h0 : cf.charmap ch = 0
    · rw [if_pos h0] at hg
      exact absurd hg (by simp)
    · rw [if_neg h0] at hg
      simp only [PResult.ok.injEq, Option.some.injEq] at hg
      intro hzero
      rw [← hg] at hzero
      exact h0 hzero
  · intro h0
    rw [heval, if_pos h0]
  · intro h0
    rw [heval, if_neg h0]

/-! ### C5 -/

/-- C5: a zero-width or zero-height raster request fails with the
"glyph bounds are empty" error before any cache access: the state comes
back exactly as it went in. -/
theorem C5_rasterize_rejects_empty_bounds (s : WindowsTextSystemState)
    (params : RenderGlyphParams) (glyph_bounds : BoundsD)
    (h : glyph_bounds.size.width = 0 ∨ glyph_bounds.size.height = 0) :
    s.rasterize_glyph params glyph_bounds = .err ("glyph bounds are empty", s) := by
  unfold WindowsTextSystemState.rasterize_glyph
  rw [if_pos h]

/-! ### C7 -/

/-- After `get_image`, the cache always holds the returned entry. -/
theorem get_image_snd_lookup (c : SwashCache) (key : CacheKey) :
    lookupA key (c.get_image key).2.image_cache = some (c.get_image key).1 := by
  unfold SwashCache.get_image
  cases hl : lookupA key c.image_cache with
  | some imgOpt => simpa using hl
  | none => simp [lookupA_cons_self]

/-- A `get_image` call whose key is already cached returns the cached entry
and leaves the cache unchanged. -/
theorem get_image_hit {c : SwashCache} {key : CacheKey} {imgOpt : Option SwashImage}
    (h : lookupA key c.image_cache = some imgOpt) :
    c.get_image key = (imgOpt, c) := by
  unfold SwashCache.get_image
  rw [h]

/-- C7: paired as the renderer pairs them — `rasterize_glyph` called with
the bounds that `raster_bounds` reported for the same `RenderGlyphParams` —
the bitmap size of a successful rasterization equals the reported bounds
size; moreover the rasterization is a pure cache hit, leaving the state
unchanged. -/
theorem C7_raster_dimensions_agree (s s1 s2 : WindowsTextSystemState)
    (params : RenderGlyphParams) (b : BoundsD) (sz : SizeD) (data : List Nat)
    (h1 : s.raster_bounds params = .ok (b, s1))
    (h2 : s1.rasterize_glyph params b = .ok ((sz, data), s2)) :
    sz = b.size ∧ s2 = s1 := by
  unfold WindowsTextSystemState.raster_bounds at h1
  split at h1
  · exact absurd h1 (by simp)
  next cf hf =>
    dsimp only at h1
    split at h1
    · exact absurd h1 (by simp)
    next image himg =>
      simp only [PResult.ok.injEq, Prod.mk.injEq] at h1
      obtain ⟨-, hs1⟩ := h1
      unfold WindowsTextSystemState.rasterize_glyph at h2
      split at h2
      · exact absurd h2 (by simp)
      · split at h2
        · exact absurd h2 (by simp)
        next cf2 hf2 =>
          -- `raster_bounds` only touched the swash cache, so the handle
          -- lookup and hence the cache key are unchanged.
          have hcf2 : cf2 = cf := by
            rw [← hs1] at hf2
            have : s.fonts.get? params.font_id.id = some cf2 := hf2
            rw [hf] at this
            injection this with hx
            exact hx.symm
          subst hcf2
          have hhit : s1.swash_cache.get_image (rasterCacheKey cf2 params) =
              ((s.swash_cache.get_image (rasterCacheKey cf2 params)).1, s1.swash_cache) := by
            have hcache : s1.swash_cache =
                (s.swash_cache.get_image (rasterCacheKey cf2 params)).2 := by
              rw [← hs1]
            rw [hcache]
            exact get_image_hit (get_image_snd_lookup s.swash_cache (rasterCacheKey cf2 params))
          dsimp only at h2
          rw [hhit] at h2
          rw [himg] at h2
          simp only [RResult.ok.injEq, Prod.mk.injEq] at h2
          obtain ⟨⟨hsz, -⟩, hs2⟩ := h2
          constructor
          · exact hsz.symm
          · rw [← hs2]

/-! ### Frame lemmas for the remaining operations -/

/-- `layout_line` reads but never writes the modelled state. -/
theorem layout_line_inversion {s s1 : WindowsTextSystemState} {text : String}
    {size : Rat} {runs : List FontRun} {ll : LineLayout}
    (h : s.layout_line text size runs = .ok (ll, s1)) :
    s1 = s ∧ ∃ attrs L rsv,
      buildAttrs s runs 0 = some attrs ∧
      (s.font_system.shapeFn s.font_system.faces text attrs size).head? = some L ∧
      mkRuns s.fonts s.postscript_names_by_font_id L.glyphs = some rsv ∧
      ll = { font_size := size, width := L.w, ascent := L.max_ascent,
             descent := L.max_descent, runs := rsv, len := text.utf8ByteSize } := by
  unfold WindowsTextSystemState.layout_line at h
  split at h
  · exact absurd h (by simp)
  next attrs hA =>
    split at h
    · exact absurd h (by simp)
    next L hL =>
      split at h
      · exact absurd h (by simp)
      next rsv hR =>
        simp only [PResult.ok.injEq, Prod.mk.injEq] at h
        obtain ⟨hll, hs⟩ := h
        exact ⟨hs.symm, attrs, L, rsv, hA, hL, hR, hll.symm⟩

/-- `raster_bounds` mutates only the rasterization cache. -/
theorem raster_bounds_frame {s s1 : WindowsTextSystemState}
    {params : RenderGlyphParams} {b : BoundsD}
    (h : s.raster_bounds params = .ok (b, s1)) :
    s1.fonts = s.fonts ∧ s1.font_system = s.font_system ∧
    s1.font_selections = s.font_selections ∧
    s1.postscript_names_by_font_id = s.postscript_names_by_font_id := by
  unfold WindowsTextSystemState.raster_bounds at h
  split at h
  · exact absurd h (by simp)
  next cf hf =>
    dsimp only at h
    split at h
    · exact absurd h (by simp)
    next image himg =>
      simp only [PResult.ok.injEq, Prod.mk.injEq] at h
      obtain ⟨-, hs⟩ := h
      rw [← hs]
      exact ⟨rfl, rfl, rfl, rfl⟩

/-- `rasterize_glyph` mutates only the rasterization cache, and nothing at
all on its error path. -/
theorem rasterize_glyph_frame {s : WindowsTextSystemState}
    {params : RenderGlyphParams} {gb : BoundsD} :
    (∀ r s1, s.rasterize_glyph params gb = .ok (r, s1) →
        s1.fonts = s.fonts ∧ s1.font_system = s.font_system ∧
        s1.font_selections = s.font_selections ∧
        s1.postscript_names_by_font_id = s.postscript_names_by_font_id) ∧
    (∀ e, s.rasterize_glyph params gb = .err e → e.2 = s) := by
  constructor
  · intro r s1 h
    unfold WindowsTextSystemState.rasterize_glyph at h
    split at h
    · exact absurd h (by simp)
    · split at h
      · exact absurd h (by simp)
      next cf hf =>
        dsimp only at h
        split at h
        · exact absurd h (by simp)
        next image himg =>
          simp only [RResult.ok.injEq, Prod.mk.injEq] at h
          obtain ⟨-, hs⟩ := h
          rw [← hs]
          exact ⟨rfl, rfl, rfl, rfl⟩
  · intro e h
    unfold WindowsTextSystemState.rasterize_glyph at h
    split at h
    next hz =>
      simp only [RResult.err.injEq] at h
      rw [← h]
    next hz =>
      split at h
      · exact absurd h (by simp)
      next cf hf =>
        dsimp only at h
        split at h
        · exact absurd h (by simp)
        · exact absurd h (by simp)

/-- A successful `font_id` only appends to the handle list and keeps the
other long-lived tables except the Font Selections entry it adds. -/
theorem font_id_ok_frame {s s1 : WindowsTextSystemState} {f : Font} {fid : FontId}
    (h : s.font_id f = .ok (fid, s1)) :
    appendOnly s.fonts s1.fonts ∧ s1.font_system = s.font_system ∧
    s1.postscript_names_by_font_id = s.postscript_names_by_font_id := by
  rcases font_id_ok_inversion h with ⟨-, rfl⟩ | ⟨-, sf, i, hfam, -, hcase⟩
  · exact ⟨appendOnly_refl _, rfl, rfl⟩
  · obtain ⟨hao, hsys, -, hps, -⟩ := familyStage_frame hfam
    rcases hcase with ⟨p, -, -, rfl⟩ | ⟨-, cf, -, -, rfl⟩
    · exact ⟨hao, hsys, hps⟩
    · exact ⟨appendOnly_trans hao ⟨[cf], rfl⟩, hsys, hps⟩

/-- A failing `font_id` returns the family-stage state: handles only
appended, other tables untouched. -/
theorem font_id_err_frame {s : WindowsTextSystemState} {f : Font}
    {e : String × WindowsTextSystemState} (h : s.font_id f = .err e) :
    appendOnly s.fonts e.2.fonts ∧ e.2.font_system = s.font_system ∧
    e.2.font_selections = s.font_selections ∧
    e.2.postscript_names_by_font_id = s.postscript_names_by_font_id := by
  obtain ⟨-, -, hfam, -⟩ := font_id_err_inversion h
  obtain ⟨hao, hsys, hsel, hps, -⟩ := familyStage_frame hfam
  exact ⟨hao, hsys, hsel, hps⟩

/-! ### C9 -/

/-- C9: the loaded-font list is append-only under every operation — no
entry is ever removed, replaced, or reordered, so a minted `FontId` keeps
indexing the same loaded handle (final conjunct). -/
theorem C9_fonts_append_only (s : WindowsTextSystemState) :
    (∀ f fid s1, s.font_id f = .ok (fid, s1) → appendOnly s.fonts s1.fonts) ∧
    (∀ f e, s.font_id f = .err e → appendOnly s.fonts e.2.fonts) ∧
    (∀ name feat fids s1, s.load_family name feat = .ok (fids, s1) →
        appendOnly s.fonts s1.fonts) ∧
    (∀ bufs, appendOnly s.fonts (s.add_fonts bufs).fonts) ∧
    (∀ text size runs ll s1, s.layout_line text size runs = .ok (ll, s1) →
        appendOnly s.fonts s1.fonts) ∧
    (∀ params b s1, s.raster_bounds params = .ok (b, s1) →
        appendOnly s.fonts s1.fonts) ∧
    (∀ params gb r s1, s.rasterize_glyph params gb = .ok (r, s1) →
        appendOnly s.fonts s1.fonts) ∧
    (∀ params gb e, s.rasterize_glyph params gb = .err e →
        appendOnly s.fonts e.2.fonts) ∧
    (∀ f fid s1 i cf, s.font_id f = .ok (fid, s1) → s.fonts.get? i = some cf →
        s1.fonts.get? i = some cf) := by
  refine ⟨?_, ?_, ?_, ?_, ?_, ?_, ?_, ?_, ?_⟩
  · intro f fid s1 h
    exact (font_id_ok_frame h).1
  · intro f e h
    exact (font_id_err_frame h).1
  · intro name feat fids s1 h
    exact (load_family_frame h).1
  · intro bufs
    exact appendOnly_refl s.fonts
  · intro text size runs ll s1 h
    rw [(layout_line_inversion h).1]
    exact appendOnly_refl s.fonts
  · intro params b s1 h
    rw [(raster_bounds_frame h).1]
    exact appendOnly_refl s.fonts
  · intro params gb r s1 h
    rw [((rasterize_glyph_frame).1 r s1 h).1]
    exact appendOnly_refl s.fonts
  · intro params gb e h
    rw [(rasterize_glyph_frame).2 e h]
    exact appendOnly_refl s.fonts
  · intro f fid s1 i cf h hg
    exact appendOnly_get (font_id_ok_frame h).1 hg

/-! ### C6 -/

/-- Specification of the per-glyph loop: one single-glyph run per shaped
glyph, in shaping order, with the `FontId` recovered by linear scan of the
loaded-font list and the glyph id, source index and emoji flag copied per
glyph. -/
theorem mkRuns_spec (fonts : List CosmicFont) (ps : List (FontId × String)) :
    ∀ (gs : List LayoutGlyph) (rs : List ShapedRun), mkRuns fonts ps gs = some rs →
      rs.length = gs.length ∧
      rs.all (fun r => r.glyphs.length == 1) = true ∧
      rs.map (fun r => some r.font_id.id) =
        gs.map (fun g => position (fun cf => cf.id == g.font_id) fonts) ∧
      rs.map (fun r => r.glyphs.map (fun sg => sg.id)) =
        gs.map (fun g => [GlyphId.mk g.glyph_id]) ∧
      rs.map (fun r => r.glyphs.map (fun sg => sg.index)) =
        gs.map (fun g => [g.start]) := by
  intro gs
  induction gs with
  | nil =>
    intro rs h
    simp [mkRuns] at h
    subst h
    simp
  | cons g rest ih =>
    intro rs h
    unfold mkRuns at h
    split at h
    · exact absurd h (by simp)
    next p hpos =>
      split at h
      · exact absurd h (by simp)
      next rs0 hrest =>
        simp only [Option.some.injEq] at h
        subst h
        obtain ⟨ih1, ih2, ih3, ih4, ih5⟩ := ih rs0 hrest
        refine ⟨by simp [ih1], ?_, ?_, ?_, ?_⟩
        · simp only [List.all_cons, Bool.and_eq_true]
          exact ⟨by simp, ih2⟩
        · simp only [List.map_cons, hpos, ih3]
        · simp only [List.map_cons, List.map_nil, ih4]
        · simp only [List.map_cons, List.map_nil, ih5]

/-- C6: a successful `layout_line` consults only the first shaped output
line `L`, and produces exactly one single-glyph `ShapedRun` per glyph of
`L`, in shaping order, with each run's `FontId` obtained by linear scan of
the loaded-font list for the glyph's engine-internal face id. -/
theorem C6_layout_line_single_glyph_runs (s s1 : WindowsTextSystemState)
    (text : String) (size : Rat) (runs : List FontRun) (attrs : List SpanAttr)
    (L : EngineLine) (ll : LineLayout)
    (hA : buildAttrs s runs 0 = some attrs)
    (hL : (s.font_system.shapeFn s.font_system.faces text attrs size).head? = some L)
    (h : s.layout_line text size runs = .ok (ll, s1)) :
    ll.runs.length = L.glyphs.length ∧
    ll.runs.all (fun r => r.glyphs.length == 1) = true ∧
    ll.runs.map (fun r => some r.font_id.id) =
      L.glyphs.map (fun g => position (fun cf => cf.id == g.font_id) s.fonts) ∧
    ll.runs.map (fun r => r.glyphs.map (fun sg => sg.id)) =
      L.glyphs.map (fun g => [GlyphId.mk g.glyph_id]) ∧
    ll.runs.map (fun r => r.glyphs.map (fun sg => sg.index)) =
      L.glyphs.map (fun g => [g.start]) := by
  obtain ⟨-, attrs2, L2, rsv, hA2, hL2, hR, hll⟩ := layout_line_inversion h
  rw [hA] at hA2
  injection hA2 with hA2
  subst hA2
  rw [hL] at hL2
  injection hL2 with hL2
  subst hL2
  have hruns : ll.runs = rsv := by rw [hll]
  rw [hruns]
  exact mkRuns_spec s.fonts s.postscript_names_by_font_id L.glyphs rsv hR

/-! ### C8 -/

/-- Inversion of `load_ui_icons_font`: on success the synthetic face was
pushed, its handle fetched by family match, the selection recorded under
`FontId(fonts.len())`, and the handle appended. -/
theorem load_ui_icons_font_inversion {s s1 : WindowsTextSystemState} {windir : String}
    (h : s.load_ui_icons_font windir = .ok s1) :
    ∃ face_id icon_rc,
      ((s.font_system.push_face_info (iconFaceInfo windir)).get_font_matches
          iconFamilyName).head? = some face_id ∧
      (s.font_system.push_face_info (iconFaceInfo windir)).get_font face_id =
        some icon_rc ∧
      s1 = { s with
               font_system := s.font_system.push_face_info (iconFaceInfo windir)
               font_selections :=
                 (font iconFamilyName, FontId.mk s.fonts.length) :: s.font_selections
               fonts := s.fonts ++ [icon_rc] } := by
  unfold WindowsTextSystemState.load_ui_icons_font at h
  dsimp only at h
  split at h
  · exact absurd h (by simp)
  next face_id hm =>
    split at h
    · exact absurd h (by simp)
    next icon_rc hg =>
      simp only [PResult.ok.injEq] at h
      exact ⟨face_id, icon_rc, hm, hg, h.symm⟩

/-- `load_system_fonts` only appends faces to the database. -/
theorem load_files_faces (paths : List String) :
    ∀ fs : FontSystem, ∃ tail,
      (paths.foldl (fun a path => FontSystem.load_font_file a path) fs).faces =
        fs.faces ++ tail := by
  induction paths with
  | nil => intro fs; exact ⟨[], by simp⟩
  | cons p rest ih =>
    intro fs
    obtain ⟨tail, ht⟩ := ih (fs.load_font_file p)
    refine ⟨fs.loadFileFn p ++ tail, ?_⟩
    simp only [List.foldl_cons, ht]
    simp [FontSystem.load_font_file]

/-- `load_system_fonts` leaves everything but the path set and the database
faces unchanged. -/
theorem load_system_fonts_frame (s : WindowsTextSystemState) (discovered : List String) :
    (s.load_system_fonts discovered).fonts = s.fonts ∧
    (s.load_system_fonts discovered).font_selections = s.font_selections ∧
    (s.load_system_fonts discovered).font_ids_by_family_name = s.font_ids_by_family_name ∧
    (s.load_system_fonts discovered).postscript_names_by_font_id =
      s.postscript_names_by_font_id ∧
    ∃ tail, (s.load_system_fonts discovered).font_system.faces =
      s.font_system.faces ++ tail := by
  refine ⟨rfl, rfl, rfl, rfl, ?_⟩
  unfold WindowsTextSystemState.load_system_fonts
  exact load_files_faces discovered.dedup s.font_system

/-- C8: after a successful construction, the synthetic icon face (fixed
family name "Segoe Fluent Icons") is registered in the database, the
loaded-font list holds exactly the one icon handle (so it was assigned
`FontId(0)` as the first entry of the initially empty list), the Font
Selections cache maps the icon `Font` to `FontId(0)`, and resolving
`font("Segoe Fluent Icons")` succeeds with `FontId(0)`. -/
theorem C8_icon_font_is_font_id_zero (p : EngineParams) (s : WindowsTextSystemState)
    (h : windowsTextSystemNew p = .ok s) :
    iconFaceInfo p.windir ∈ s.font_system.faces ∧
    s.fonts.length = 1 ∧
    lookupA (font iconFamilyName) s.font_selections = some (FontId.mk 0) ∧
    s.font_id (font iconFamilyName) = .ok (FontId.mk 0, s) := by
  unfold windowsTextSystemNew at h
  dsimp only at h
  split at h
  · exact absurd h (by simp)
  next s1 hui =>
    obtain ⟨face_id, icon_rc, hm, hg, hs1⟩ := load_ui_icons_font_inversion hui
    obtain ⟨hfonts2, hsel2eq, -, -, tail, hfaces⟩ :=
      load_system_fonts_frame s1 p.discovered_paths
    -- The fresh state is literal, so the state after icon registration is
    -- fully determined.
    have hsel1 : s1.font_selections = [(font iconFamilyName, FontId.mk 0)] := by
      rw [hs1]
      exact rfl
    have hfonts1 : s1.fonts = [icon_rc] := by
      rw [hs1]
      exact rfl
    have hfaces1 : s1.font_system.faces =
        p.initial_faces ++ [iconFaceInfo p.windir] := by
      rw [hs1]
      exact rfl
    -- The debugging resolution inside `new` is a pure cache hit.
    have hsel2 : lookupA (font iconFamilyName)
        (s1.load_system_fonts p.discovered_paths).font_selections =
        some (FontId.mk 0) := by
      rw [hsel2eq, hsel1]
      exact lookupA_cons_self (font iconFamilyName) (FontId.mk 0) []
    have hhit := font_id_hit hsel2
    simp only [hhit, PResult.ok.injEq] at h
    subst h
    refine ⟨?_, ?_, hsel2, hhit⟩
    · rw [hfaces, hfaces1]
      simp
    · rw [hfonts2, hfonts1]
      exact rfl

/-! ### C10 -/

/-- A successfully constructed text system starts with an empty
postscript-name table. -/
theorem new_psnames_empty {p : EngineParams} {s : WindowsTextSystemState}
    (h : windowsTextSystemNew p = .ok s) :
    s.postscript_names_by_font_id = [] := by
  unfold windowsTextSystemNew at h
  dsimp only at h
  split at h
  · exact absurd h (by simp)
  next s1 hui =>
    obtain ⟨face_id, icon_rc, hm, hg, hs1⟩ := load_ui_icons_font_inversion hui
    have hps2 : (s1.load_system_fonts p.discovered_paths).postscript_names_by_font_id
        = [] := by
      rw [hs1]
      exact rfl
    split at h
    · exact absurd h (by simp)
    next e herr =>
      simp only [PResult.ok.injEq] at h
      subst h
      rw [(font_id_err_frame herr).2.2.2]
      exact hps2
    next r hok =>
      obtain ⟨fid, s3⟩ := r
      simp only [PResult.ok.injEq] at h
      subst h
      rw [(font_id_ok_frame hok).2.2]
      exact hps2

/-- No operation of the text system ever populates
`postscript_names_by_font_id`: it stays empty in every reachable state. -/
theorem reachable_psnames_empty {s : WindowsTextSystemState} (h : Reachable s) :
    s.postscript_names_by_font_id = [] := by
  induction h with
  | init p s hnew => exact new_psnames_empty hnew
  | add_fonts s bufs hr ih => exact ih
  | font_id_ok s f fid s1 hr hop ih =>
    rw [(font_id_ok_frame hop).2.2]
    exact ih
  | font_id_err s f e hr hop ih =>
    rw [(font_id_err_frame hop).2.2.2]
    exact ih
  | raster_bounds s params b s1 hr hop ih =>
    rw [(raster_bounds_frame hop).2.2.2]
    exact ih
  | rasterize_ok s params gb r s1 hr hop ih =>
    rw [((rasterize_glyph_frame).1 r s1 hop).2.2.2]
    exact ih
  | rasterize_err s params gb e hr hop ih =>
    rw [(rasterize_glyph_frame).2 e hop]
    exact ih
  | layout s text size runs ll s1 hr hop ih =>
    rw [(layout_line_inversion hop).1]
    exact ih

/-- Against an empty postscript-name table, every wrapped glyph's emoji
flag is false. -/
theorem mkRuns_no_emoji (fonts : List CosmicFont) :
    ∀ (gs : List LayoutGlyph) (rs : List ShapedRun),
      mkRuns fonts [] gs = some rs →
      rs.all (fun r => r.glyphs.all (fun g => !g.is_emoji)) = true := by
  intro gs
  induction gs with
  | nil =>
    intro rs h
    simp [mkRuns] at h
    subst h
    simp
  | cons g rest ih =>
    intro rs h
    unfold mkRuns at h
    split at h
    · exact absurd h (by simp)
    next p hpos =>
      split at h
      · exact absurd h (by simp)
      next rs0 hrest =>
        simp only [Option.some.injEq] at h
        subst h
        simp only [List.all_cons, Bool.and_eq_true]
        refine ⟨?_, ih rs0 hrest⟩
        simp [is_emoji_of, lookupA]

/-- C10: in any reachable state, every `ShapedGlyph` a successful
`layout_line` produces has `is_emoji = false`, because the
postscript-name table the flag consults is never populated. -/
theorem C10_layout_line_never_emoji (s s1 : WindowsTextSystemState) (text : String)
    (size : Rat) (runs : List FontRun) (ll : LineLayout)
    (hr : Reachable s) (h : s.layout_line text size runs = .ok (ll, s1)) :
    ll.runs.all (fun r => r.glyphs.all (fun g => !g.is_emoji)) = true := by
  obtain ⟨-, attrs, L, rsv, -, -, hR, hll⟩ := layout_line_inversion h
  have hps := reachable_psnames_empty hr
  rw [hps] at hR
  have hruns : ll.runs = rsv := by rw [hll]
  rw [hruns]
  exact mkRuns_no_emoji s.fonts L.glyphs rsv hR

/-! ### Witnesses -/

/-- Evaluation lemma: rasterizing with non-degenerate bounds in a state
whose cache already holds the key is a pure hit. -/
theorem rasterize_glyph_eval {s : WindowsTextSystemState} {params : RenderGlyphParams}
    {gb : BoundsD} {cf : CosmicFont} {image : SwashImage}
    (hnz : ¬(gb.size.width = 0 ∨ gb.size.height = 0))
    (hf : s.fonts.get? params.font_id.id = some cf)
    (hl : lookupA (rasterCacheKey cf params) s.swash_cache.image_cache =
      some (some image)) :
    s.rasterize_glyph params gb = .ok ((gb.size, image.data), s) := by
  unfold WindowsTextSystemState.rasterize_glyph
  rw [if_neg hnz, hf]
  dsimp only
  rw [get_image_hit hl]

/-- Witness for C1: a fresh resolution of "Arial" mints `FontId 0`, records
it, and resolving again returns the identical id and state. -/
theorem C1_font_id_memoized_witness :
    arialS0.font_id arialF1 = .ok (FontId.mk 0, arialS1) ∧
    lookupA arialF1 arialS1.font_selections = some (FontId.mk 0) ∧
    arialS1.font_id arialF1 = .ok (FontId.mk 0, arialS1) :=
  ⟨rfl, (C1_font_id_memoized arialS0 arialS1 arialF1 (FontId.mk 0) rfl).1,
    (C1_font_id_memoized arialS0 arialS1 arialF1 (FontId.mk 0) rfl).2⟩

/-- Witness for C2: two distinct "Arial" requests (weights 400 and 700)
both map to face 5 and resolve to the same `FontId 0`. -/
theorem C2_font_id_dedup_by_face_witness :
    lookupA arialF1 arialS0.font_selections = none ∧
    arialS0.font_id arialF1 = .ok (FontId.mk 0, arialS1) ∧
    lookupA arialF2 arialS1.font_selections = none ∧
    arialS1.font_id arialF2 = .ok (FontId.mk 0, arialS2) ∧
    FontId.mk 0 = FontId.mk 0 :=
  ⟨rfl, rfl, rfl, rfl,
    C2_font_id_dedup_by_face arialS0 arialS1 arialS2 arialF1 arialF2
      (FontId.mk 0) (FontId.mk 0) 5 rfl rfl rfl rfl rfl rfl
      (fun cf hcf => by injection hcf with hcf; rw [← hcf])⟩

/-- Witness for C3: with the family cached and a database that matches
nothing, `font_id` fails with exactly the "no font" error. -/
theorem C3_font_id_no_font_error_witness :
    lookupA nopeF nopeS.font_selections = none ∧
    nopeS.familyStage nopeF = .ok nopeS ∧
    nopeS.font_system.query (queryOf nopeF) = none ∧
    nopeS.font_id nopeF = .err ("no font", nopeS) :=
  ⟨rfl, rfl, rfl, (C3_font_id_no_font_error nopeS nopeF).2 nopeS rfl rfl rfl⟩

/-- Witness for C4: the character mapped to glyph 0 yields "no glyph";
another character yields its nonzero glyph id. -/
theorem C4_glyph_for_char_notdef_witness :
    c4s.fonts.get? 0 = some c4cf ∧
    c4s.glyph_for_char (FontId.mk 0) 'a' = .ok none ∧
    c4s.glyph_for_char (FontId.mk 0) 'b' = .ok (some (GlyphId.mk 7)) :=
  ⟨rfl,
    (C4_glyph_for_char_notdef c4s (FontId.mk 0) c4cf 'a' rfl).2.1 (by decide),
    (C4_glyph_for_char_notdef c4s (FontId.mk 0) c4cf 'b' rfl).2.2 (by decide)⟩

/-- Witness for C5: a zero-width raster request fails with the
"glyph bounds are empty" error leaving the state untouched. -/
theorem C5_rasterize_rejects_empty_bounds_witness :
    baseState.rasterize_glyph c5params c5bounds =
      .err ("glyph bounds are empty", baseState) :=
  C5_rasterize_rejects_empty_bounds baseState c5params c5bounds (Or.inl rfl)

/-- Witness for C6: shaping "ab" into two glyphs yields two single-glyph
runs in order, each resolved by linear scan to `FontId 0`. -/
theorem C6_layout_line_single_glyph_runs_witness :
    buildAttrs c6s c6runs 0 = some c6attrs ∧
    (c6s.font_system.shapeFn c6s.font_system.faces "ab" c6attrs 14).head? = some c6L ∧
    c6s.layout_line "ab" 14 c6runs = .ok (c6ll, c6s) ∧
    c6ll.runs.length = c6L.glyphs.length ∧
    c6ll.runs.all (fun r => r.glyphs.length == 1) = true ∧
    c6ll.runs.map (fun r => some r.font_id.id) =
      c6L.glyphs.map (fun g => position (fun cf => cf.id == g.font_id) c6s.fonts) ∧
    c6ll.runs.map (fun r => r.glyphs.map (fun sg => sg.id)) =
      c6L.glyphs.map (fun g => [GlyphId.mk g.glyph_id]) ∧
    c6ll.runs.map (fun r => r.glyphs.map (fun sg => sg.index)) =
      c6L.glyphs.map (fun g => [g.start]) := by
  have h := C6_layout_line_single_glyph_runs c6s c6s "ab" 14 c6runs c6attrs c6L c6ll
    rfl rfl rfl
  exact ⟨rfl, rfl, rfl, h.1, h.2.1, h.2.2.1, h.2.2.2.1, h.2.2.2.2⟩

/-- Witness for C7: `raster_bounds` reports 3×4 pixels and `rasterize_glyph`
with those bounds returns a 3×4 bitmap, as a pure cache hit. -/
theorem C7_raster_dimensions_agree_witness :
    c7s.raster_bounds c7params = .ok (c7b, c7s1) ∧
    c7s1.rasterize_glyph c7params c7b = .ok ((c7b.size, c7img.data), c7s1) ∧
    (c7b.size = c7b.size ∧ c7s1 = c7s1) := by
  have h2 : c7s1.rasterize_glyph c7params c7b = .ok ((c7b.size, c7img.data), c7s1) :=
    rasterize_glyph_eval (by decide) rfl
      (by
        show lookupA (rasterCacheKey c7cf c7params)
          [(rasterCacheKey c7cf c7params, some c7img)] = some (some c7img)
        simp [lookupA])
  exact ⟨rfl, h2,
    C7_raster_dimensions_agree c7s c7s1 c7s1 c7params c7b c7b.size c7img.data rfl h2⟩

/-- Witness for C8: construction with `demoParams` succeeds, registers the
icon face, and resolves it to `FontId 0`. -/
theorem C8_icon_font_is_font_id_zero_witness :
    windowsTextSystemNew demoParams = .ok demoState ∧
    iconFaceInfo demoParams.windir ∈ demoState.font_system.faces ∧
    demoState.fonts.length = 1 ∧
    lookupA (font iconFamilyName) demoState.font_selections = some (FontId.mk 0) ∧
    demoState.font_id (font iconFamilyName) = .ok (FontId.mk 0, demoState) := by
  have h := C8_icon_font_is_font_id_zero demoParams demoState rfl
  exact ⟨rfl, h.1, h.2.1, h.2.2.1, h.2.2.2⟩

/-- Witness for C9: resolving "Arial" appends the fetched handle after the
pre-existing one, which keeps its index and identity; `add_fonts` leaves
the handle list untouched. -/
theorem C9_fonts_append_only_witness :
    c9s0.font_id arialF1 = .ok (FontId.mk 1, c9s1) ∧
    appendOnly c9s0.fonts c9s1.fonts ∧
    appendOnly c9s0.fonts (c9s0.add_fonts [[arialFace]]).fonts ∧
    c9s0.fonts.get? 0 = some c9cf ∧
    c9s1.fonts.get? 0 = some c9cf := by
  have h := C9_fonts_append_only c9s0
  exact ⟨rfl, h.1 arialF1 (FontId.mk 1) c9s1 rfl, h.2.2.2.1 [[arialFace]], rfl,
    h.2.2.2.2.2.2.2.2 arialF1 (FontId.mk 1) c9s1 0 c9cf rfl rfl⟩

/-- Witness for C10: in the freshly constructed (hence reachable) state,
shaping "a" succeeds and every produced glyph has `is_emoji = false`. -/
theorem C10_layout_line_never_emoji_witness :
    demoState.layout_line "a" 14 [{ font_id := FontId.mk 0, len := 1 }] =
      .ok (c10ll, demoState) ∧
    c10ll.runs.all (fun r => r.glyphs.all (fun g => !g.is_emoji)) = true :=
  ⟨rfl,
    C10_layout_line_never_emoji demoState demoState "a" 14
      [{ font_id := FontId.mk 0, len := 1 }] c10ll
      (Reachable.init demoParams demoState rfl) rfl⟩

end ZedWinText
